import Mathlib

/-!
Shallow embedding of the `remote-data-rtk` library core (`src/core/index.ts`).

JavaScript payloads and errors are modelled by a single untyped value
universe `JSVal`, with distinct `undef` and `null` members, so that the
source's `x != null` checks, array payloads (tuples) and object payloads
(records) are represented faithfully. A remote-data value is the record
`{ status, data, error }` exactly as the source builds it: the four
constructors fill the three fields the way the TypeScript literals do
(a field missing from the literal reads as `undefined`).
-/

/-- Untyped JavaScript value universe: `undefined`, `null`, booleans,
numbers, strings, arrays and plain objects (ordered key-value lists). -/
inductive JSVal where
  | undef : JSVal
  | null : JSVal
  | bool : Bool → JSVal
  | num : Int → JSVal
  | str : String → JSVal
  | arr : List JSVal → JSVal
  | obj : List (String × JSVal) → JSVal

/-- Models the JavaScript loose check `x != null`, which is `true` exactly
when `x` is neither `null` nor `undefined`. -/
def JSVal.nonNull : JSVal → Bool
  | .undef => false
  | .null => false
  | _ => true

/-- `QueryStatus` from `@reduxjs/toolkit/query`. -/
inductive QueryStatus where
  | uninitialized : QueryStatus
  | pending : QueryStatus
  | fulfilled : QueryStatus
  | rejected : QueryStatus
deriving DecidableEq

/-- The `RemoteRTK` state record `{ status, data, error }`. A field absent
from a TypeScript object literal is `undefined` when read, so it is
embedded as `JSVal.undef`. -/
structure RemoteRTK where
  status : QueryStatus
  data : JSVal
  error : JSVal

/-- fp-ts `Option`, embedded as Lean `Option JSVal` would lose nothing, but
`Either` has no exact Lean twin with these names, so both get small types
mirroring the fp-ts constructors used by the source. `Option` is Lean's. -/
inductive Either where
  | left : JSVal → Either
  | right : JSVal → Either

/-- fp-ts `fromNullable`: `null`/`undefined` become `none`. -/
def fromNullable (v : JSVal) : Option JSVal :=
  if v.nonNull then some v else none

/-- fp-ts `Option.fold`. -/
def optionFold {β : Type} (onNone : Unit → β) (onSome : JSVal → β) : Option JSVal → β
  | none => onNone ()
  | some a => onSome a

/-- `remoteRTK.initial`. -/
def initial : RemoteRTK :=
  { status := QueryStatus.uninitialized, data := JSVal.undef, error := JSVal.undef }

/-- `remoteRTK.pending(value?)`: the TypeScript literal has no `error` key,
so `error` reads as `undefined`; calling `pending()` with the argument
omitted is `pending JSVal.undef` here. -/
def pending (value : JSVal) : RemoteRTK :=
  { status := QueryStatus.pending, data := value, error := JSVal.undef }

/-- `remoteRTK.failure(error)`. -/
def failure (error : JSVal) : RemoteRTK :=
  { status := QueryStatus.rejected, data := JSVal.undef, error := error }

/-- `remoteRTK.success(value)`. -/
def success (value : JSVal) : RemoteRTK :=
  { status := QueryStatus.fulfilled, data := value, error := JSVal.undef }

/-- `remoteRTK.isInitial`. -/
def isInitial (d : RemoteRTK) : Bool :=
  d.status == QueryStatus.uninitialized

/-- `remoteRTK.isPending`. -/
def isPending (d : RemoteRTK) : Bool :=
  d.status == QueryStatus.pending

/-- `remoteRTK.isFailure`. -/
def isFailure (d : RemoteRTK) : Bool :=
  d.status == QueryStatus.rejected

/-- `remoteRTK.isSuccess`. -/
def isSuccess (d : RemoteRTK) : Bool :=
  d.status == QueryStatus.fulfilled

/-- `remoteRTK.map(f)`: spreads the record and replaces `data` by
`f(data)` exactly when `data != null`. -/
def map (f : JSVal → JSVal) (d : RemoteRTK) : RemoteRTK :=
  { d with data := if d.data.nonNull then f d.data else d.data }

/-- `remoteRTK.fold(onInitial, onPending, onFailure, onSuccess)`. -/
def fold {β : Type} (onInitial : Unit → β) (onPending : Option JSVal → β)
    (onFailure : JSVal → β) (onSuccess : JSVal → β) (d : RemoteRTK) : β :=
  if isInitial d then onInitial ()
  else if isFailure d then onFailure d.error
  else if isSuccess d then onSuccess d.data
  else onPending (fromNullable d.data)

/-- `remoteRTK.getOrElse(onElse)`. -/
def getOrElse (onElse : Unit → JSVal) (d : RemoteRTK) : JSVal :=
  if isSuccess d then d.data
  else if isPending d && d.data.nonNull then d.data
  else onElse ()

/-- `remoteRTK.toNullable`. -/
def toNullable (d : RemoteRTK) : JSVal :=
  if isSuccess d then d.data
  else if isPending d && d.data.nonNull then d.data
  else JSVal.null

/-- `remoteRTK.fromOption(option, onNone)`. -/
def fromOption (option : Option JSVal) (onNone : Unit → JSVal) : RemoteRTK :=
  match option with
  | none => failure (onNone ())
  | some v => success v

/-- `remoteRTK.toOption`. -/
def toOption (d : RemoteRTK) : Option JSVal :=
  if isSuccess d then some d.data
  else if isPending d && d.data.nonNull then some d.data
  else none

/-- `remoteRTK.fromEither(ea)`. -/
def fromEither : Either → RemoteRTK
  | .left e => failure e
  | .right a => success a

/-- `remoteRTK.toEither(onInitial, onPending)`. -/
def toEither (onInitial : Unit → JSVal) (onPending : Unit → JSVal)
    (d : RemoteRTK) : Either :=
  if isSuccess d then Either.right d.data
  else if isFailure d then Either.left d.error
  else if isInitial d then Either.left (onInitial ())
  else if isPending d && d.data.nonNull then Either.right d.data
  else Either.left (onPending ())

/-- `remoteRTK.chain(f)`: in the untyped model the trailing
`data as RemoteRTK<E, B>` cast is the identity. -/
def chain (f : JSVal → RemoteRTK) (d : RemoteRTK) : RemoteRTK :=
  if isSuccess d then f d.data
  else if isPending d && d.data.nonNull then f d.data
  else d

/-- `remoteRTK.sequenceT(...list)`: the variadic arguments form a list; the
tuple payloads are JavaScript arrays of the inputs' `data` fields. -/
def sequenceT (list : List RemoteRTK) : RemoteRTK :=
  let successCount := (list.filter (fun d => isSuccess d)).length
  if successCount = list.length then
    success (JSVal.arr (list.map (fun d => d.data)))
  else
    match list.find? (fun d => isFailure d) with
    | some failureEntry => failure failureEntry.error
    | none =>
      let pendingDataOrSuccessCount :=
        (list.filter (fun el => (isPending el && el.data.nonNull) || isSuccess el)).length
      if pendingDataOrSuccessCount = list.length then
        pending (JSVal.arr (list.map (fun d => d.data)))
      else
        let pendingCount := (list.filter (fun d => isPending d)).length
        if pendingCount > 0 then pending JSVal.undef
        else initial

/-- `remoteRTK.sequenceS(struct)`: `Object.entries` of a plain object is its
key-value list in insertion order, so the struct is a `List (String × RemoteRTK)`
with distinct keys; the `reduce` with spread rebuilds the object in that
same key order from the entries' own `data` fields. -/
def sequenceS (struct : List (String × RemoteRTK)) : RemoteRTK :=
  let entries := struct
  let list := entries.map (fun kv => kv.2)
  let tupleSequence := sequenceT list
  if isSuccess tupleSequence then
    success (JSVal.obj (entries.map (fun kv => (kv.1, kv.2.data))))
  else if isPending tupleSequence && tupleSequence.data.nonNull then
    pending (JSVal.obj (entries.map (fun kv => (kv.1, kv.2.data))))
  else if isPending tupleSequence then pending JSVal.undef
  else if isFailure tupleSequence then tupleSequence
  else initial

/-- Props of the `RenderRemoteRTK` component. `ReactNode` content is a
`JSVal`; optional props are `Option`-valued, `none` when omitted. -/
structure RenderRemoteRTKProps where
  data : RemoteRTK
  failureContent : Option (JSVal → JSVal)
  initialContent : Option JSVal
  pendingContent : Option JSVal
  refetching : Option (JSVal → JSVal)
  successContent : JSVal → JSVal

/-- A rendered React fragment wrapping one child, the result of
`createElement(Fragment, null, child)`. -/
structure JSXElement where
  fragmentChild : JSVal

/-- `RenderRemoteRTK`: applies the source's defaulting of omitted props
(`pending = null`, `refetching = () => pending`, `failure = () => null`,
`initial = null`), then `fold` with the pending branch split by
`optionFold`, wrapped in a fragment. -/
def RenderRemoteRTK (props : RenderRemoteRTKProps) : JSXElement :=
  let pendingC := props.pendingContent.getD JSVal.null
  let refetchingC := props.refetching.getD (fun _ => pendingC)
  let failureC := props.failureContent.getD (fun _ => JSVal.null)
  let initialC := props.initialContent.getD JSVal.null
  JSXElement.mk
    (fold (fun _ => initialC) (optionFold (fun _ => pendingC) refetchingC)
      failureC props.successContent props.data)

/-- A remote-data value is well formed when it was built by one of the four
constructors. -/
inductive WellFormed : RemoteRTK → Prop where
  | initial : WellFormed initial
  | pending (v : JSVal) : WellFormed (pending v)
  | failure (e : JSVal) : WellFormed (failure e)
  | success (a : JSVal) : WellFormed (success a)

theorem isInitial_iff {d : RemoteRTK} : isInitial d = true ↔ d.status = QueryStatus.uninitialized := by
  simp [isInitial]

theorem isPending_iff {d : RemoteRTK} : isPending d = true ↔ d.status = QueryStatus.pending := by
  simp [isPending]

theorem isFailure_iff {d : RemoteRTK} : isFailure d = true ↔ d.status = QueryStatus.rejected := by
  simp [isFailure]

theorem isSuccess_iff {d : RemoteRTK} : isSuccess d = true ↔ d.status = QueryStatus.fulfilled := by
  simp [isSuccess]

/-- C2: `map f` preserves the variant tag and the error field on every
well-formed state, applies `f` to the data exactly when the data is present
(non-null), and is the identity on the whole record when the data is absent
— hence `map f (success a) = success (f a)` for present payloads,
`Initial` and `Failure` pass through unchanged, and `map` over a bare
`pending()` yields `pending()` with `f` never consulted. -/
theorem map_spec (f : JSVal → JSVal) (d : RemoteRTK) (_hwf : WellFormed d) :
    (map f d).status = d.status ∧
    (map f d).error = d.error ∧
    (d.data.nonNull = true → (map f d).data = f d.data) ∧
    (d.data.nonNull = false → map f d = d) := by
  refine ⟨rfl, rfl, fun h => ?_, fun h => ?_⟩ <;> simp [map, h]

/-- Witness for C2 at `f := fun v => arr [v]` and `d := success (num 3)`. -/
theorem map_spec_witness :
    WellFormed (success (JSVal.num 3)) ∧
    ((map (fun v => JSVal.arr [v]) (success (JSVal.num 3))).status
        = (success (JSVal.num 3)).status ∧
      (map (fun v => JSVal.arr [v]) (success (JSVal.num 3))).error
        = (success (JSVal.num 3)).error ∧
      ((success (JSVal.num 3)).data.nonNull = true →
        (map (fun v => JSVal.arr [v]) (success (JSVal.num 3))).data
          = JSVal.arr [(success (JSVal.num 3)).data]) ∧
      ((success (JSVal.num 3)).data.nonNull = false →
        map (fun v => JSVal.arr [v]) (success (JSVal.num 3)) = success (JSVal.num 3))) :=
  ⟨WellFormed.success _, map_spec (fun v => JSVal.arr [v]) _ (WellFormed.success _)⟩

/-- C3: `chain f` returns `f` of the payload on `Success` and on `Pending`
with present data (so the variant may change), and returns the input value
unchanged on `Initial`, `Failure` and `Pending` without data. -/
theorem chain_spec (f : JSVal → RemoteRTK) (d : RemoteRTK) (_hwf : WellFormed d) :
    (isSuccess d = true → chain f d = f d.data) ∧
    (isPending d = true → d.data.nonNull = true → chain f d = f d.data) ∧
    (isInitial d = true ∨ isFailure d = true ∨
        (isPending d = true ∧ d.data.nonNull = false) →
      chain f d = d) := by
  refine ⟨fun h => ?_, fun hp hd => ?_, fun h => ?_⟩
  · simp [chain, h]
  · have hs : isSuccess d = false := by
      simp [isSuccess, isPending_iff.mp hp]
    simp [chain, hs, hp, hd]
  · rcases h with h | h | ⟨hp, hd⟩
    · have hs : isSuccess d = false := by simp [isSuccess, isInitial_iff.mp h]
      have hpf : isPending d = false := by simp [isPending, isInitial_iff.mp h]
      simp [chain, hs, hpf]
    · have hs : isSuccess d = false := by simp [isSuccess, isFailure_iff.mp h]
      have hpf : isPending d = false := by simp [isPending, isFailure_iff.mp h]
      simp [chain, hs, hpf]
    · have hs : isSuccess d = false := by simp [isSuccess, isPending_iff.mp hp]
      simp [chain, hs, hp, hd]

/-- Witness for C3 at a `Pending`-with-data input chained into a function
returning `Success`, promoting the variant. -/
theorem chain_spec_witness :
    WellFormed (pending (JSVal.num 2)) ∧
    isPending (pending (JSVal.num 2)) = true ∧
    (pending (JSVal.num 2)).data.nonNull = true ∧
    chain (fun v => success v) (pending (JSVal.num 2)) = success (JSVal.num 2) :=
  ⟨WellFormed.pending _, rfl, rfl,
    (chain_spec (fun v => success v) _ (WellFormed.pending _)).2.1 rfl rfl⟩

/-- C5: `fromOption`/`toOption` and `fromEither`/`toEither` round trips:
`fromOption (some a) = success a`, `fromOption none = failure (onNone ())`,
`toOption (fromOption (some a)) = some a`, `fromEither` maps `right` to
`success` and `left` to `failure`, and `toEither` is a left inverse of
`fromEither` on every `Either` value. -/
theorem option_either_roundtrip (a e : JSVal) (onNone onI onP : Unit → JSVal)
    (ev : Either) :
    fromOption (some a) onNone = success a ∧
    fromOption none onNone = failure (onNone ()) ∧
    toOption (fromOption (some a) onNone) = some a ∧
    fromEither (Either.right a) = success a ∧
    fromEither (Either.left e) = failure e ∧
    toEither onI onP (fromEither ev) = ev := by
  refine ⟨rfl, rfl, rfl, rfl, rfl, ?_⟩
  cases ev <;> rfl

/-- C6: for each of the four constructors exactly the matching predicate
holds and the other three are false. -/
theorem constructors_predicates_exclusive (v e a : JSVal) :
    isInitial initial = true ∧ isPending initial = false ∧
    isFailure initial = false ∧ isSuccess initial = false ∧
    isInitial (pending v) = false ∧ isPending (pending v) = true ∧
    isFailure (pending v) = false ∧ isSuccess (pending v) = false ∧
    isInitial (failure e) = false ∧ isPending (failure e) = false ∧
    isFailure (failure e) = true ∧ isSuccess (failure e) = false ∧
    isInitial (success a) = false ∧ isPending (success a) = false ∧
    isFailure (success a) = false ∧ isSuccess (success a) = true := by
  refine ⟨rfl, rfl, rfl, rfl, rfl, rfl, rfl, rfl, rfl, rfl, rfl, rfl, rfl, rfl, rfl, rfl⟩

/-- C9: `chain` invokes its continuation on every `Success`, including a
`null` or `undefined` payload, while `map` transforms a `Success` payload
only when it passes the non-null check and otherwise returns the `Success`
with the payload untransformed. -/
theorem chain_unconditional_map_nullcheck (g : JSVal → RemoteRTK)
    (f : JSVal → JSVal) (a : JSVal) :
    chain g (success a) = g a ∧
    (a.nonNull = true → map f (success a) = success (f a)) ∧
    (a.nonNull = false → map f (success a) = success a) := by
  refine ⟨rfl, fun h => ?_, fun h => ?_⟩
  · simp [map, success, h]
  · simp [map, success, h]

/-- Witness for C9 at the `null` payload: `chain` still calls its
continuation, `map` leaves the payload alone. -/
theorem chain_unconditional_map_nullcheck_witness :
    chain (fun v => failure v) (success JSVal.null) = failure JSVal.null ∧
    JSVal.null.nonNull = false ∧
    map (fun _ => JSVal.num 7) (success JSVal.null) = success JSVal.null :=
  ⟨(chain_unconditional_map_nullcheck (fun v => failure v) (fun _ => JSVal.num 7) JSVal.null).1,
    rfl,
    (chain_unconditional_map_nullcheck (fun v => failure v) (fun _ => JSVal.num 7) JSVal.null).2.2 rfl⟩

/-- C10: `pending(null)` behaves exactly like `pending()` everywhere in the
algebra: `fold` hands `none` to the pending callback, `getOrElse` falls
back to its thunk, `toNullable` gives `null`, `toOption` gives `none`,
`toEither` gives `left (onPending ())`, `chain` returns the value
unchanged, and `sequenceT` does not treat it as `Pending`-with-data. -/
theorem pending_null_equiv_pending_undef {β : Type} (i : Unit → β)
    (p : Option JSVal → β) (fe : JSVal → β) (fs : JSVal → β)
    (onElse onI onP : Unit → JSVal) (g : JSVal → RemoteRTK) :
    fold i p fe fs (pending JSVal.null) = p none ∧
    fold i p fe fs (pending JSVal.undef) = p none ∧
    getOrElse onElse (pending JSVal.null) = onElse () ∧
    getOrElse onElse (pending JSVal.undef) = onElse () ∧
    toNullable (pending JSVal.null) = JSVal.null ∧
    toNullable (pending JSVal.undef) = JSVal.null ∧
    toOption (pending JSVal.null) = none ∧
    toOption (pending JSVal.undef) = none ∧
    toEither onI onP (pending JSVal.null) = Either.left (onP ()) ∧
    toEither onI onP (pending JSVal.undef) = Either.left (onP ()) ∧
    chain g (pending JSVal.null) = pending JSVal.null ∧
    chain g (pending JSVal.undef) = pending JSVal.undef ∧
    sequenceT [success (JSVal.num 1), pending JSVal.null] = pending JSVal.undef ∧
    sequenceT [success (JSVal.num 1), pending JSVal.undef] = pending JSVal.undef := by
  refine ⟨rfl, rfl, rfl, rfl, rfl, rfl, rfl, rfl, rfl, rfl, rfl, rfl, rfl, rfl⟩

theorem length_filter_eq_iff {α : Type} (p : α → Bool) (l : List α) :
    (l.filter p).length = l.length ↔ ∀ a ∈ l, p a = true := by
  induction l with
  | nil => simp
  | cons x xs ih =>
    by_cases hx : p x = true
    · simp [List.filter_cons, hx, ih]
    · constructor
      · intro h
        exfalso
        have hle := List.length_filter_le p xs
        rw [List.filter_cons, if_neg (by simp [hx])] at h
        simp only [List.length_cons] at h
        omega
      · intro h
        exact absurd (h x (by simp)) hx

theorem length_filter_ne {α : Type} (p : α → Bool) (l : List α) (d : α) (hd : d ∈ l)
    (hpd : p d = false) : (l.filter p).length ≠ l.length := by
  intro hc
  have hall := (length_filter_eq_iff p l).mp hc d hd
  rw [hpd] at hall
  cases hall

theorem length_filter_pos_iff {α : Type} (p : α → Bool) (l : List α) :
    0 < (l.filter p).length ↔ ∃ a ∈ l, p a = true := by
  induction l with
  | nil => simp
  | cons x xs ih =>
    by_cases hx : p x = true
    · simp [List.filter_cons, hx]
    · rw [List.filter_cons, if_neg (by simp [hx])]
      rw [ih]
      constructor
      · rintro ⟨a, ha, hpa⟩
        exact ⟨a, List.mem_cons_of_mem x ha, hpa⟩
      · rintro ⟨a, ha, hpa⟩
        rcases List.mem_cons.mp ha with rfl | ha
        · exact absurd hpa hx
        · exact ⟨a, ha, hpa⟩

theorem find?_first {α : Type} (p : α → Bool) (l : List α) (i : Nat) (hi : i < l.length)
    (hp : p (l.get ⟨i, hi⟩) = true)
    (hmin : ∀ j (hj : j < i), p (l.get ⟨j, Nat.lt_trans hj hi⟩) = false) :
    l.find? p = some (l.get ⟨i, hi⟩) := by
  induction l generalizing i with
  | nil => simp at hi
  | cons x xs ih =>
    cases i with
    | zero =>
      exact List.find?_cons_of_pos _ hp
    | succ i =>
      have hx : p x = false := hmin 0 (Nat.succ_pos i)
      rw [List.find?_cons_of_neg _ (by simp [hx])]
      exact ih i (Nat.lt_of_succ_lt_succ hi) hp
        (fun j hj => hmin (j + 1) (Nat.succ_lt_succ hj))

theorem isFailure_false_of_isSuccess {d : RemoteRTK} (h : isSuccess d = true) :
    isFailure d = false := by
  simp [isFailure, isSuccess_iff.mp h]

theorem isFailure_false_of_isPending {d : RemoteRTK} (h : isPending d = true) :
    isFailure d = false := by
  simp [isFailure, isPending_iff.mp h]

theorem isSuccess_false_of_isFailure {d : RemoteRTK} (h : isFailure d = true) :
    isSuccess d = false := by
  simp [isSuccess, isFailure_iff.mp h]

theorem sequenceT_success_branch (l : List RemoteRTK)
    (h : (l.filter (fun d => isSuccess d)).length = l.length) :
    sequenceT l = success (JSVal.arr (l.map (fun d => d.data))) := by
  simp only [sequenceT]
  rw [if_pos h]

theorem sequenceT_failure_branch (l : List RemoteRTK)
    (h1 : (l.filter (fun d => isSuccess d)).length ≠ l.length)
    (e : RemoteRTK) (h2 : l.find? (fun d => isFailure d) = some e) :
    sequenceT l = failure e.error := by
  simp only [sequenceT]
  rw [if_neg h1, h2]

theorem sequenceT_pendingData_branch (l : List RemoteRTK)
    (h1 : (l.filter (fun d => isSuccess d)).length ≠ l.length)
    (h2 : l.find? (fun d => isFailure d) = none)
    (h3 : (l.filter (fun el => (isPending el && el.data.nonNull) || isSuccess el)).length
        = l.length) :
    sequenceT l = pending (JSVal.arr (l.map (fun d => d.data))) := by
  simp only [sequenceT]
  rw [if_neg h1, h2]
  simp only []
  rw [if_pos h3]

theorem sequenceT_pendingEmpty_branch (l : List RemoteRTK)
    (h1 : (l.filter (fun d => isSuccess d)).length ≠ l.length)
    (h2 : l.find? (fun d => isFailure d) = none)
    (h3 : (l.filter (fun el => (isPending el && el.data.nonNull) || isSuccess el)).length
        ≠ l.length)
    (h4 : (l.filter (fun d => isPending d)).length > 0) :
    sequenceT l = pending JSVal.undef := by
  simp only [sequenceT]
  rw [if_neg h1, h2]
  simp only []
  rw [if_neg h3, if_pos h4]

theorem sequenceT_initial_branch (l : List RemoteRTK)
    (h1 : (l.filter (fun d => isSuccess d)).length ≠ l.length)
    (h2 : l.find? (fun d => isFailure d) = none)
    (h3 : (l.filter (fun el => (isPending el && el.data.nonNull) || isSuccess el)).length
        ≠ l.length)
    (h4 : ¬ (l.filter (fun d => isPending d)).length > 0) :
    sequenceT l = initial := by
  simp only [sequenceT]
  rw [if_neg h1, h2]
  simp only []
  rw [if_neg h3, if_neg h4]

/-- C1: `sequenceT` on a list of 1 to 6 well-formed states returns, by
priority: `success` of the array of payloads when all inputs are
`Success`; otherwise the `failure` of the first `Failure` in input order;
otherwise `pending` carrying the array of payloads when every input is
`Success` or `Pending`-with-data; otherwise a bare `pending` when some
input is `Pending`; otherwise `initial`. -/
theorem sequenceT_spec (l : List RemoteRTK) (_hlen1 : 1 ≤ l.length)
    (_hlen6 : l.length ≤ 6) (_hwf : ∀ d ∈ l, WellFormed d) :
    ((∀ d ∈ l, isSuccess d = true) →
      sequenceT l = success (JSVal.arr (l.map (fun d => d.data)))) ∧
    (∀ i (hi : i < l.length), isFailure (l.get ⟨i, hi⟩) = true →
      (∀ j (hj : j < i), isFailure (l.get ⟨j, Nat.lt_trans hj hi⟩) = false) →
      sequenceT l = failure (l.get ⟨i, hi⟩).error) ∧
    ((∃ d ∈ l, isSuccess d = false) →
      (∀ d ∈ l, isSuccess d = true ∨ (isPending d = true ∧ d.data.nonNull = true)) →
      sequenceT l = pending (JSVal.arr (l.map (fun d => d.data)))) ∧
    ((∃ d ∈ l, isSuccess d = false ∧ (isPending d = false ∨ d.data.nonNull = false)) →
      (∀ d ∈ l, isFailure d = false) →
      (∃ d ∈ l, isPending d = true) →
      sequenceT l = pending JSVal.undef) ∧
    ((∃ d ∈ l, isSuccess d = false) →
      (∀ d ∈ l, isFailure d = false) →
      (∀ d ∈ l, isPending d = false) →
      sequenceT l = initial) := by
  refine ⟨?_, ?_, ?_, ?_, ?_⟩
  · intro h
    exact sequenceT_success_branch l ((length_filter_eq_iff _ l).mpr h)
  · intro i hi hf hmin
    have hmem : l.get ⟨i, hi⟩ ∈ l := List.get_mem l i hi
    have h1 := length_filter_ne (fun d => isSuccess d) l _ hmem
      (isSuccess_false_of_isFailure hf)
    exact sequenceT_failure_branch l h1 _ (find?_first _ l i hi hf hmin)
  · intro hns hall
    obtain ⟨d, hd, hds⟩ := hns
    have h1 := length_filter_ne (fun d => isSuccess d) l d hd hds
    have h2 : l.find? (fun d => isFailure d) = none := by
      rw [List.find?_eq_none]
      intro x hx hfx
      rcases hall x hx with hs | ⟨hp, _⟩
      · rw [isFailure_false_of_isSuccess hs] at hfx
        cases hfx
      · rw [isFailure_false_of_isPending hp] at hfx
        cases hfx
    have h3 : (l.filter
        (fun el => (isPending el && el.data.nonNull) || isSuccess el)).length = l.length := by
      apply (length_filter_eq_iff _ l).mpr
      intro a ha
      rcases hall a ha with hs | ⟨hp, hn⟩
      · simp [hs]
      · simp [hp, hn]
    exact sequenceT_pendingData_branch l h1 h2 h3
  · intro hex hnf hp
    obtain ⟨d, hd, hds, hrest⟩ := hex
    have h1 := length_filter_ne (fun d => isSuccess d) l d hd hds
    have h2 : l.find? (fun d => isFailure d) = none := by
      rw [List.find?_eq_none]
      intro x hx hfx
      rw [hnf x hx] at hfx
      cases hfx
    have h3 : (l.filter
        (fun el => (isPending el && el.data.nonNull) || isSuccess el)).length ≠ l.length := by
      apply length_filter_ne _ l d hd
      rcases hrest with hpf | hnn
      · simp [hpf, hds]
      · simp [hnn, hds]
    have h4 : (l.filter (fun d => isPending d)).length > 0 :=
      (length_filter_pos_iff _ l).mpr hp
    exact sequenceT_pendingEmpty_branch l h1 h2 h3 h4
  · intro hns hnf hnp
    obtain ⟨d, hd, hds⟩ := hns
    have h1 := length_filter_ne (fun d => isSuccess d) l d hd hds
    have h2 : l.find? (fun d => isFailure d) = none := by
      rw [List.find?_eq_none]
      intro x hx hfx
      rw [hnf x hx] at hfx
      cases hfx
    have h3 : (l.filter
        (fun el => (isPending el && el.data.nonNull) || isSuccess el)).length ≠ l.length := by
      apply length_filter_ne _ l d hd
      simp [hnp d hd, hds]
    have h4 : ¬ (l.filter (fun d => isPending d)).length > 0 := by
      intro hpos
      obtain ⟨a, ha, hpa⟩ := (length_filter_pos_iff _ l).mp hpos
      rw [hnp a ha] at hpa
      cases hpa
    exact sequenceT_initial_branch l h1 h2 h3 h4

/-- Witness for C1 at `[failure "a", failure "b"]`: the first failure wins,
order-sensitively. -/
theorem sequenceT_spec_witness :
    sequenceT [failure (JSVal.str "a"), failure (JSVal.str "b")]
      = failure (JSVal.str "a") :=
  (sequenceT_spec [failure (JSVal.str "a"), failure (JSVal.str "b")]
      (by simp) (by simp)
      (by
        intro d hd
        rcases List.mem_cons.mp hd with rfl | hd
        · exact WellFormed.failure _
        · rcases List.mem_cons.mp hd with rfl | hd
          · exact WellFormed.failure _
          · cases hd)).2.1
    0 (by simp) rfl (fun j hj => absurd hj (Nat.not_lt_zero j))

theorem sequenceT_shape (l : List RemoteRTK) :
    sequenceT l = success (JSVal.arr (l.map (fun d => d.data))) ∨
    (∃ e, sequenceT l = failure e) ∨
    sequenceT l = pending (JSVal.arr (l.map (fun d => d.data))) ∨
    sequenceT l = pending JSVal.undef ∨
    sequenceT l = initial := by
  simp only [sequenceT]
  split
  · exact Or.inl rfl
  · split
    · exact Or.inr (Or.inl ⟨_, rfl⟩)
    · split
      · exact Or.inr (Or.inr (Or.inl rfl))
      · split
        · exact Or.inr (Or.inr (Or.inr (Or.inl rfl)))
        · exact Or.inr (Or.inr (Or.inr (Or.inr rfl)))

/-- Re-attach keys positionally to a tuple (array) payload, as the spec
describes for `sequenceS`. -/
def reattachKeys (keys : List String) : JSVal → JSVal
  | .arr vals => .obj (keys.zip vals)
  | v => v

/-- Specification-side definition of `sequenceS`, written from the spec's
words: run `sequenceT` over the struct's values (in the struct's own key
enumeration order), keep its variant and error, and in the payload-carrying
cases re-attach the keys positionally to the resulting tuple. -/
def sequenceS_spec (struct : List (String × RemoteRTK)) : RemoteRTK :=
  let t := sequenceT (struct.map (fun kv => kv.2))
  if isSuccess t || (isPending t && t.data.nonNull) then
    { status := t.status,
      data := reattachKeys (struct.map (fun kv => kv.1)) t.data,
      error := t.error }
  else t

theorem zip_fst_snd_map (f : RemoteRTK → JSVal) (struct : List (String × RemoteRTK)) :
    (struct.map (fun kv => kv.1)).zip ((struct.map (fun kv => kv.2)).map f)
      = struct.map (fun kv => (kv.1, f kv.2)) := by
  induction struct with
  | nil => rfl
  | cons kv rest ih => simp only [List.map_cons, List.zip_cons_cons, ih]

/-- C4: `sequenceS` coincides with running `sequenceT` over the struct's
values and re-attaching the keys positionally — same variant, same error,
and in the `Success` and `Pending`-with-data cases an object with exactly
the input keys, in input key order, bound to the resolved payloads. -/
theorem sequenceS_refines_sequenceT (struct : List (String × RemoteRTK))
    (_hnd : (struct.map (fun kv => kv.1)).Nodup) :
    sequenceS struct = sequenceS_spec struct := by
  rcases sequenceT_shape (struct.map (fun kv => kv.2)) with h | ⟨e, h⟩ | h | h | h
  · simp only [sequenceS, sequenceS_spec, h]
    show success (JSVal.obj (struct.map (fun kv => (kv.1, kv.2.data))))
        = success (reattachKeys (struct.map (fun kv => kv.1))
            (JSVal.arr ((struct.map (fun kv => kv.2)).map (fun d => d.data))))
    simp only [reattachKeys]
    rw [zip_fst_snd_map]
  · simp only [sequenceS, sequenceS_spec, h]
    rfl
  · simp only [sequenceS, sequenceS_spec, h]
    show pending (JSVal.obj (struct.map (fun kv => (kv.1, kv.2.data))))
        = pending (reattachKeys (struct.map (fun kv => kv.1))
            (JSVal.arr ((struct.map (fun kv => kv.2)).map (fun d => d.data))))
    simp only [reattachKeys]
    rw [zip_fst_snd_map]
  · simp only [sequenceS, sequenceS_spec, h]
    rfl
  · simp only [sequenceS, sequenceS_spec, h]
    rfl

/-- Witness for C4 at `{x: success 1, y: success 2}`: the refinement holds
and both sides evaluate to `success {x: 1, y: 2}`, keys in input order. -/
theorem sequenceS_refines_sequenceT_witness :
    ([("x", success (JSVal.num 1)), ("y", success (JSVal.num 2))].map
        (fun kv => kv.1)).Nodup ∧
    sequenceS [("x", success (JSVal.num 1)), ("y", success (JSVal.num 2))]
      = sequenceS_spec [("x", success (JSVal.num 1)), ("y", success (JSVal.num 2))] ∧
    sequenceS_spec [("x", success (JSVal.num 1)), ("y", success (JSVal.num 2))]
      = success (JSVal.obj [("x", JSVal.num 1), ("y", JSVal.num 2)]) :=
  ⟨by simp,
    sequenceS_refines_sequenceT _ (by simp),
    rfl⟩

theorem sequenceS_shape (struct : List (String × RemoteRTK)) :
    (∃ v, sequenceS struct = success v) ∨ (∃ e, sequenceS struct = failure e) ∨
    (∃ v, sequenceS struct = pending v) ∨ sequenceS struct = initial := by
  rcases sequenceT_shape (struct.map (fun kv => kv.2)) with h | ⟨e, h⟩ | h | h | h
  · simp only [sequenceS, h]
    exact Or.inl ⟨_, rfl⟩
  · simp only [sequenceS, h]
    exact Or.inr (Or.inl ⟨e, rfl⟩)
  · simp only [sequenceS, h]
    exact Or.inr (Or.inr (Or.inl ⟨_, rfl⟩))
  · simp only [sequenceS, h]
    exact Or.inr (Or.inr (Or.inl ⟨_, rfl⟩))
  · simp only [sequenceS, h]
    exact Or.inr (Or.inr (Or.inr rfl))

/-- C7: the algebra is total and closed: on well-formed inputs every
operation returns a well-formed state or one of its enumerated defined
outcomes, `fold` always lands in exactly one of the four caller callbacks,
and the only failure the algebra itself synthesizes is carried as data in
the `Failure` variant (`fromOption none`), never thrown. -/
theorem algebra_total (d : RemoteRTK) (hwf : WellFormed d)
    (f : JSVal → JSVal) (g : JSVal → RemoteRTK) (hg : ∀ v, WellFormed (g v))
    (o : Option JSVal) (ev : Either) (onNone onElse onI onP : Unit → JSVal)
    (l : List RemoteRTK) (struct : List (String × RemoteRTK)) :
    WellFormed (map f d) ∧
    WellFormed (chain g d) ∧
    WellFormed (fromOption o onNone) ∧
    WellFormed (fromEither ev) ∧
    WellFormed (sequenceT l) ∧
    WellFormed (sequenceS struct) ∧
    (∀ (β : Type) (i : Unit → β) (p : Option JSVal → β) (fe : JSVal → β)
        (fs : JSVal → β),
      fold i p fe fs d = i () ∨ (∃ x, fold i p fe fs d = p x) ∨
        (∃ er, fold i p fe fs d = fe er) ∨ (∃ a, fold i p fe fs d = fs a)) ∧
    (getOrElse onElse d = d.data ∨ getOrElse onElse d = onElse ()) ∧
    (toNullable d = d.data ∨ toNullable d = JSVal.null) ∧
    (toOption d = some d.data ∨ toOption d = none) ∧
    (toEither onI onP d = Either.right d.data ∨
      toEither onI onP d = Either.left d.error ∨
      toEither onI onP d = Either.left (onI ()) ∨
      toEither onI onP d = Either.left (onP ())) ∧
    fromOption none onNone = failure (onNone ()) := by
  refine ⟨?_, ?_, ?_, ?_, ?_, ?_, ?_, ?_, ?_, ?_, ?_, rfl⟩
  · cases hwf with
    | initial => exact WellFormed.initial
    | pending v => exact WellFormed.pending _
    | failure e => exact WellFormed.failure _
    | success a => exact WellFormed.success _
  · cases hwf with
    | initial => exact WellFormed.initial
    | pending v =>
      cases v with
      | undef => exact WellFormed.pending _
      | null => exact WellFormed.pending _
      | bool b => exact hg _
      | num n => exact hg _
      | str s => exact hg _
      | arr xs => exact hg _
      | obj xs => exact hg _
    | failure e => exact WellFormed.failure _
    | success a => exact hg _
  · cases o with
    | none => exact WellFormed.failure _
    | some v => exact WellFormed.success _
  · cases ev with
    | left e => exact WellFormed.failure _
    | right a => exact WellFormed.success _
  · rcases sequenceT_shape l with h | ⟨e, h⟩ | h | h | h <;> rw [h]
    · exact WellFormed.success _
    · exact WellFormed.failure _
    · exact WellFormed.pending _
    · exact WellFormed.pending _
    · exact WellFormed.initial
  · rcases sequenceS_shape struct with ⟨v, h⟩ | ⟨e, h⟩ | ⟨v, h⟩ | h <;> rw [h]
    · exact WellFormed.success _
    · exact WellFormed.failure _
    · exact WellFormed.pending _
    · exact WellFormed.initial
  · intro β i p fe fs
    cases hwf with
    | initial => exact Or.inl rfl
    | pending v => exact Or.inr (Or.inl ⟨_, rfl⟩)
    | failure e => exact Or.inr (Or.inr (Or.inl ⟨e, rfl⟩))
    | success a => exact Or.inr (Or.inr (Or.inr ⟨a, rfl⟩))
  · cases hwf with
    | initial => exact Or.inr rfl
    | pending v =>
      cases v with
      | undef => exact Or.inr rfl
      | null => exact Or.inr rfl
      | bool b => exact Or.inl rfl
      | num n => exact Or.inl rfl
      | str s => exact Or.inl rfl
      | arr xs => exact Or.inl rfl
      | obj xs => exact Or.inl rfl
    | failure e => exact Or.inr rfl
    | success a => exact Or.inl rfl
  · cases hwf with
    | initial => exact Or.inr rfl
    | pending v =>
      cases v with
      | undef => exact Or.inr rfl
      | null => exact Or.inr rfl
      | bool b => exact Or.inl rfl
      | num n => exact Or.inl rfl
      | str s => exact Or.inl rfl
      | arr xs => exact Or.inl rfl
      | obj xs => exact Or.inl rfl
    | failure e => exact Or.inr rfl
    | success a => exact Or.inl rfl
  · cases hwf with
    | initial => exact Or.inr rfl
    | pending v =>
      cases v with
      | undef => exact Or.inr rfl
      | null => exact Or.inr rfl
      | bool b => exact Or.inl rfl
      | num n => exact Or.inl rfl
      | str s => exact Or.inl rfl
      | arr xs => exact Or.inl rfl
      | obj xs => exact Or.inl rfl
    | failure e => exact Or.inr rfl
    | success a => exact Or.inl rfl
  · cases hwf with
    | initial => exact Or.inr (Or.inr (Or.inl rfl))
    | pending v =>
      cases v with
      | undef => exact Or.inr (Or.inr (Or.inr rfl))
      | null => exact Or.inr (Or.inr (Or.inr rfl))
      | bool b => exact Or.inl rfl
      | num n => exact Or.inl rfl
      | str s => exact Or.inl rfl
      | arr xs => exact Or.inl rfl
      | obj xs => exact Or.inl rfl
    | failure e => exact Or.inr (Or.inl rfl)
    | success a => exact Or.inl rfl

/-- Witness for C7 at `d := success 1`, `g := success`: results are
well-formed states, and the algebra's own synthesized failure is carried
as `Failure` data. -/
theorem algebra_total_witness :
    WellFormed (map (fun v => v) (success (JSVal.num 1))) ∧
    WellFormed (chain (fun v => success v) (success (JSVal.num 1))) ∧
    fromOption none (fun _ => JSVal.num 9) = failure (JSVal.num 9) := by
  have h := algebra_total (success (JSVal.num 1)) (WellFormed.success _)
    (fun v => v) (fun v => success v) (fun v => WellFormed.success v)
    none (Either.right (JSVal.num 1)) (fun _ => JSVal.num 9) (fun _ => JSVal.num 9)
    (fun _ => JSVal.num 9) (fun _ => JSVal.num 9) [] []
  exact ⟨h.1, h.2.1, h.2.2.2.2.2.2.2.2.2.2.2⟩

/-- C8: `RenderRemoteRTK` picks exactly one renderer by variant via `fold`
with the pending branch split on data presence: initial content on
`Initial`, pending content on bare `Pending`, `refetching(data)` on
`Pending`-with-data, `failure(error)` on `Failure`, `success(data)` on
`Success`; omitted initial/pending/failure renderers default to empty
(`null`) content and an omitted `refetching` defaults to the bare-pending
content, while `success` is a required prop; the output is a single
fragment wrapping the selected renderer's result. -/
theorem render_spec (props : RenderRemoteRTKProps) (_hwf : WellFormed props.data) :
    (isInitial props.data = true →
      RenderRemoteRTK props = JSXElement.mk (props.initialContent.getD JSVal.null)) ∧
    (isPending props.data = true → props.data.data.nonNull = false →
      RenderRemoteRTK props = JSXElement.mk (props.pendingContent.getD JSVal.null)) ∧
    (isPending props.data = true → props.data.data.nonNull = true →
      RenderRemoteRTK props = JSXElement.mk
        ((props.refetching.getD (fun _ => props.pendingContent.getD JSVal.null))
          props.data.data)) ∧
    (isFailure props.data = true →
      RenderRemoteRTK props = JSXElement.mk
        ((props.failureContent.getD (fun _ => JSVal.null)) props.data.error)) ∧
    (isSuccess props.data = true →
      RenderRemoteRTK props = JSXElement.mk (props.successContent props.data.data)) := by
  refine ⟨fun h => ?_, fun hp hn => ?_, fun hp hn => ?_, fun h => ?_, fun h => ?_⟩
  · simp [RenderRemoteRTK, fold, isInitial, isFailure, isSuccess,
      isInitial_iff.mp h]
  · simp [RenderRemoteRTK, fold, isInitial, isFailure, isSuccess, optionFold,
      fromNullable, isPending_iff.mp hp, hn]
  · simp [RenderRemoteRTK, fold, isInitial, isFailure, isSuccess, optionFold,
      fromNullable, isPending_iff.mp hp, hn]
  · simp [RenderRemoteRTK, fold, isInitial, isFailure, isSuccess,
      isFailure_iff.mp h]
  · simp [RenderRemoteRTK, fold, isInitial, isFailure, isSuccess,
      isSuccess_iff.mp h]

/-- Witness for C8: a success state with every optional renderer omitted
renders the required success renderer's output in a fragment. -/
theorem render_spec_witness :
    isSuccess (success (JSVal.num 5)) = true ∧
    RenderRemoteRTK
        (RenderRemoteRTKProps.mk (success (JSVal.num 5)) none none none none
          (fun v => v))
      = JSXElement.mk (JSVal.num 5) :=
  ⟨rfl,
    (render_spec
        (RenderRemoteRTKProps.mk (success (JSVal.num 5)) none none none none
          (fun v => v))
        (WellFormed.success _)).2.2.2.2 rfl⟩
